import Mathlib

/-!
Verification of the Vortex scope analyzer (`runtime/common/scope.cpp`).

The C++ source is embedded shallowly:
  * 64-bit (`uint64_t`) and 32-bit (`uint32_t`) machine arithmetic is modelled
    on `Nat` with explicit truncation `wrap64` / `wrap32` at the operations
    where the C++ types truncate;
  * the injected register callback pair is modelled by an oracle
    `o : Nat → Nat` giving the value returned by the i-th `registerRead`
    (the device register is 64 bits wide, so reads are truncated with
    `wrap64`); `registerWrite`/`registerRead` calls are recorded in an
    explicit operation log (in the model the callbacks always succeed,
    matching the claims under scrutiny, none of which concerns transport
    failures);
  * the output stream `ofs` is modelled as the list of text lines written
    (`std::endl`-separated), and `stdout` diagnostics / `std::flush` are
    dropped (they produce no file content);
  * loops are either structural recursions on an explicit decreasing bound
    or carry a fuel argument when the C++ loop can diverge on malformed
    input (cyclic hierarchies, sub-signal widths that do not sum to the
    tap width).
-/

set_option linter.unusedVariables false

/-! ### Constants (`scope.cpp` lines 31-46) -/

def SAMPLE_FLUSH_SIZE : Nat := 100

def MAX_DELAY_CYCLES : Nat := 10000

def CMD_GET_WIDTH : Nat := 0

def CMD_GET_COUNT : Nat := 1

def CMD_GET_START : Nat := 2

def CMD_GET_DATA : Nat := 3

def CMD_SET_START : Nat := 4

def CMD_SET_STOP : Nat := 5

def CMD_SET_DEPTH : Nat := 6

/-- Truncation to `uint32_t`. -/
def wrap32 (n : Nat) : Nat := n % 2 ^ 32

/-- Truncation to `uint64_t`. -/
def wrap64 (n : Nat) : Nat := n % 2 ^ 64

/-- `uint64_t` subtraction `a - b` (wrapping below zero). -/
def sub64 (a b : Nat) : Nat := (2 ^ 64 + a - b) % 2 ^ 64

/-- `(uint64_t)-1`, the "unset" sentinel for start/stop times. -/
def UINT64_MAX : Nat := 2 ^ 64 - 1

/-! ### Register command encodings

`scope.cpp` builds every tap-scoped command by shifting the (`uint32_t`)
tap id left by 3 and or-ing the opcode; payload-carrying set-commands
additionally or a payload shifted left by 11.  In `cmd_set_depth` the
payload (`capture_size`, line 272) is itself `uint32_t`, so the whole
expression is computed in 32 bits; in `cmd_set_stop`/`cmd_set_start`
(lines 283/293) the payload is `uint64_t`. -/

/-- `(tap->id << 3) | opcode` (e.g. lines 195, 254, 375, 382, 387). -/
def cmd_tap (id opc : Nat) : Nat := wrap32 (id <<< 3) ||| opc

/-- `(capture_size << 11) | (id << 3) | CMD_SET_DEPTH` (line 272, all `uint32_t`). -/
def cmd_set_depth (id payload : Nat) : Nat :=
  wrap32 ((payload <<< 11) ||| (id <<< 3) ||| CMD_SET_DEPTH)

/-- `(stop_time << 11) | (id << 3) | CMD_SET_STOP` (lines 283 and 365). -/
def cmd_set_stop (id payload : Nat) : Nat :=
  wrap64 (payload <<< 11) ||| wrap32 (id <<< 3) ||| CMD_SET_STOP

/-- `(start_time << 11) | (id << 3) | CMD_SET_START` (line 293). -/
def cmd_set_start (id payload : Nat) : Nat :=
  wrap64 (payload <<< 11) ||| wrap32 (id <<< 3) ||| CMD_SET_START

/-! ### Data model (`scope.cpp` lines 57-71) -/

/-- `tap_signal_t`. -/
structure tap_signal_t where
  id : Nat
  name : String
  width : Nat
deriving DecidableEq, Repr

/-- `tap_t`. -/
structure tap_t where
  id : Nat
  width : Nat
  samples : Nat
  cur_sample : Nat
  cycle_time : Nat
  path : String
  signals : List tap_signal_t
deriving DecidableEq, Repr

/-- Default tap (stands in for the C++ pointer dereference target when an
index is looked up; never reached on the inputs the theorems use). -/
def tap0 : tap_t :=
  { id := 0, width := 0, samples := 0, cur_sample := 0, cycle_time := 0,
    path := "", signals := [] }

/-- One register-protocol operation, as seen by the injected callbacks:
a `registerWrite` of a command word, or a `registerRead` returning a value. -/
inductive Op where
  | write (v : Nat)
  | read (v : Nat)
deriving DecidableEq, Repr

/-! ### Trace decoder: `dump_tap` (`scope.cpp` lines 184-229) -/

/-- `((word >> word_offset) & 0x1) ? '1' : '0'` (line 200). -/
def bit_char (word off : Nat) : Char :=
  if (word >>> off) &&& 1 = 1 then '1' else '0'

/-- Mutable state threaded through `dump_tap`: the output lines written so
far, the op log, the trailing list of indices stored into `signal_data`
(recorded to reason about buffer bounds), the read counter, the mutable
tap fields (`cur_sample`, `cycle_time`) and the `signal_data` buffer. -/
structure DumpAcc where
  lines : List String
  ops : List Op
  widx : List Nat
  k : Nat
  cur : Nat
  ct : Nat
  buf : List Char
deriving DecidableEq, Repr

/-- The nested `do { ... } while` loops of `dump_tap` (lines 193-226).
One recursive call consumes exactly one bit, so `fuel := tap->width`
suffices for a well-formed tap (sub-signal widths summing to the width);
on malformed taps the C++ loop never terminates or runs past the signal
list, and the model stops when the fuel or the signal list runs out.
Arguments: remaining reversed signal list (the C++ reverse iterator
`signal_it`, whose head's width is `signal_width`), `signal_offset`,
`sample_offset`, the current data `word`. -/
def dump_tap_go (o : Nat → Nat) (tapid W samples : Nat) :
    Nat → List tap_signal_t → Nat → Nat → Nat → DumpAcc → DumpAcc
  | 0, _, _, _, _, acc => acc
  | _ + 1, [], _, _, _, acc => acc
  | fuel + 1, sig :: rest, sigOff, sampOff, word, acc =>
    -- line 199-200: extract one bit, store it backward into signal_data
    let wordOff := sampOff % 64
    let idx := sig.width - sigOff - 1
    let acc1 : DumpAcc :=
      { acc with buf := acc.buf.set idx (bit_char word wordOff),
                 widx := acc.widx ++ [idx] }
    -- lines 201-202: ++signal_offset; ++sample_offset
    let sigOff' := sigOff + 1
    let sampOff' := sampOff + 1
    if sigOff' = sig.width then
      -- line 204: signal_data[signal_width] = 0 (null termination)
      -- line 205: ofs << 'b' << signal_data.data() << ' ' << signal_it->id
      let acc2 : DumpAcc :=
        { acc1 with widx := acc1.widx ++ [sig.width],
                    buf := acc1.buf.set sig.width (Char.ofNat 0),
                    lines := acc1.lines ++
                      ["b" ++ ((acc1.buf.set idx (bit_char word wordOff)).take
                          sig.width).asString ++ " " ++ toString sig.id] }
      if sampOff' = W then
        -- lines 206-219: end-of-sample
        let acc3 : DumpAcc := { acc2 with cur := acc2.cur + 1 }
        if acc3.cur ≠ samples then
          -- lines 210-213: read next delta, cycle_time += 1 + word
          let d := wrap64 (o acc3.k)
          { acc3 with
              ops := acc3.ops ++ [Op.write (cmd_tap tapid CMD_GET_DATA), Op.read d],
              k := acc3.k + 1,
              ct := wrap64 (acc3.ct + 1 + d) }
        else acc3
      else
        -- lines 221-223: advance to the previous signal in the list
        if sampOff' % 64 ≠ 0 then
          dump_tap_go o tapid W samples fuel rest 0 sampOff' word acc2
        else
          -- inner loop exits at a 64-bit boundary; outer loop refetches
          let w' := wrap64 (o acc2.k)
          dump_tap_go o tapid W samples fuel rest 0 sampOff' w'
            { acc2 with
                ops := acc2.ops ++ [Op.write (cmd_tap tapid CMD_GET_DATA), Op.read w'],
                k := acc2.k + 1 }
    else
      if sampOff' % 64 ≠ 0 then
        dump_tap_go o tapid W samples fuel (sig :: rest) sigOff' sampOff' word acc1
      else
        if sampOff' = W then
          -- outer `while (sample_offset != tap->width)` exits mid-signal
          -- (possible only when the widths do not sum to the tap width)
          acc1
        else
          let w' := wrap64 (o acc1.k)
          dump_tap_go o tapid W samples fuel (sig :: rest) sigOff' sampOff' w'
            { acc1 with
                ops := acc1.ops ++ [Op.write (cmd_tap tapid CMD_GET_DATA), Op.read w'],
                k := acc1.k + 1 }

/-- `dump_tap` (lines 184-229): decodes one full sample of `tap`, starting
at read-counter `k`.  Returns the accumulated effects and the updated tap.
`signal_data` is `std::vector<char>(tap->width)`, i.e. `tap->width`
zero-initialised bytes. -/
def dump_tap (o : Nat → Nat) (k : Nat) (tap : tap_t) : DumpAcc × tap_t :=
  match tap.signals.reverse with
  | [] => ((⟨[], [], [], k, tap.cur_sample, tap.cycle_time,
            List.replicate tap.width (Char.ofNat 0)⟩ : DumpAcc), tap)
  | s :: rest =>
    let w0 := wrap64 (o k)
    let acc0 : DumpAcc :=
      { lines := [], ops := [Op.write (cmd_tap tap.id CMD_GET_DATA), Op.read w0],
        widx := [], k := k + 1, cur := tap.cur_sample, ct := tap.cycle_time,
        buf := List.replicate tap.width (Char.ofNat 0) }
    let acc := dump_tap_go o tap.id tap.width tap.samples tap.width
      (s :: rest) 0 0 w0 acc0
    (acc, { tap with cur_sample := acc.cur, cycle_time := acc.ct })

/-! ### Waveform writer: `advance_clock` (`scope.cpp` lines 165-182) -/

/-- The `while (cur_time < next_time)` loop of `advance_clock`
(lines 174-180), indexed by its iteration count (the loop increments
`cur_time` once per iteration, so it runs exactly `next_time - cur_time`
times): emits two half-period entries per cycle and returns the final
`cur_time`.  Timestamps are printed from `uint64_t` expressions
`cur_time * 2 + 0/1`, hence the `wrap64`. -/
def clock_go : Nat → Nat → List String × Nat
  | cur, 0 => ([], cur)
  | cur, n + 1 =>
    let rest := clock_go (cur + 1) n
    (["#" ++ toString (wrap64 (cur * 2)), "b0 0",
      "#" ++ toString (wrap64 (cur * 2 + 1)), "b1 0"] ++ rest.1, rest.2)

/-- The `while` loop with its C++ entry condition: zero iterations when
`cur_time >= next_time` already holds. -/
def clock_run (cur next : Nat) : List String × Nat := clock_go cur (next - cur)

/-- `advance_clock` (lines 165-182).  `delta = next_time - cur_time` is
`uint64_t` subtraction, and so is `next_time - MAX_DELAY_CYCLES`. -/
def advance_clock (cur next : Nat) : List String × Nat :=
  let delta := sub64 next cur
  if MAX_DELAY_CYCLES < delta then
    let xlines := ["#" ++ toString (wrap64 (cur * 2)), "bx 0",
                   "#" ++ toString (wrap64 (cur * 2 + 1)), "bx 0"]
    let cur2 := sub64 next MAX_DELAY_CYCLES
    let r := clock_run cur2 next
    (xlines ++ r.1, r.2)
  else
    let r := clock_run cur next
    (r.1, r.2)

/-! ### Multi-tap scheduler: `find_earliest_tap` (`scope.cpp` lines 148-163) -/

/-- A tap the scheduler will consider: lines 151-154 skip taps with
`samples == 0` or `cur_sample == samples`. -/
def candidate (t : tap_t) : Prop := t.samples ≠ 0 ∧ t.cur_sample ≠ t.samples

instance (t : tap_t) : Decidable (candidate t) :=
  inferInstanceAs (Decidable (t.samples ≠ 0 ∧ t.cur_sample ≠ t.samples))

/-- The linear scan of `find_earliest_tap`, carrying the absolute index of
the next tap and the best (index, cycle_time) found so far (the C++
`earliest` pointer). -/
def find_earliest_aux : Nat → List tap_t → Option (Nat × Nat) → Option (Nat × Nat)
  | _, [], best => best
  | i, t :: rest, best =>
    if t.samples = 0 then find_earliest_aux (i + 1) rest best
    else if t.cur_sample = t.samples then find_earliest_aux (i + 1) rest best
    else
      match best with
      | none => find_earliest_aux (i + 1) rest (some (i, t.cycle_time))
      | some (j, c) =>
        if t.cycle_time < c then find_earliest_aux (i + 1) rest (some (i, t.cycle_time))
        else find_earliest_aux (i + 1) rest (some (j, c))

/-- `find_earliest_tap` (lines 148-163), returning the index of the chosen
tap together with its `cycle_time` (the C++ function returns a pointer
into the vector). -/
def find_earliest_tap (taps : List tap_t) : Option (Nat × Nat) :=
  find_earliest_aux 0 taps none

/-! ### The merge loop of `vx_scope_stop` (`scope.cpp` lines 409-422) -/

/-- Result of the merge loop: the dispatch trace (tap index and the
`cycle_time` at which it was dispatched), the body lines written, the op
log, the final tap states, read counter and clock cursor. -/
structure MergeOut where
  trace : List (Nat × Nat)
  lines : List String
  ops : List Op
  taps : List tap_t
  k : Nat
  cur : Nat

/-- The `do { advance_clock; dump_tap; find_earliest_tap } while` loop
(lines 412-419).  The C++ loop terminates because every `dump_tap` call
consumes one sample of a well-formed tap; the model carries fuel, which
the caller sets to the total number of pending samples. -/
def merge_go (o : Nat → Nat) : Nat → List tap_t → Nat → Nat → MergeOut
  | 0, taps, k, cur => ⟨[], [], [], taps, k, cur⟩
  | fuel + 1, taps, k, cur =>
    match find_earliest_tap taps with
    | none => ⟨[], [], [], taps, k, cur⟩
    | some (j, ct) =>
      let clk := advance_clock cur ct
      let d := dump_tap o k (taps.getD j tap0)
      let rest := merge_go o fuel (taps.set j d.2) d.1.k clk.2
      ⟨(j, ct) :: rest.trace, clk.1 ++ d.1.lines ++ rest.lines,
       d.1.ops ++ rest.ops, rest.taps, rest.k, rest.cur⟩

/-! ### Manifest loading inside `vx_scope_stop` (`scope.cpp` lines 340-359) -/

/-- One entry of the JSON manifest's `taps` array. -/
structure manifest_tap_t where
  id : Nat
  width : Nat
  path : String
  signals : List (String × Nat)
deriving DecidableEq, Repr

/-- The state of the scope manifest file, as `vx_scope_start`/`vx_scope_stop`
observe it.  `missing` = the file cannot be opened; `unparsable` = the file
opens but `json::parse` raises (nlohmann throws on invalid input);
`parsedNull` = the file parses to the JSON `null` literal (`is_null()`);
`parsed` = a well-formed manifest. -/
inductive ManifestFile where
  | missing
  | unparsable
  | parsedNull
  | parsed (taps : List manifest_tap_t)
deriving DecidableEq, Repr

/-- The inner `for (auto& signal : tap["signals"])` loop (lines 351-356):
assigns globally ascending signal ids starting from `sid`; widths are read
with `get<uint32_t>()`. -/
def load_signals : Nat → List (String × Nat) → List tap_signal_t × Nat
  | sid, [] => ([], sid)
  | sid, (n, w) :: rest =>
    let r := load_signals (sid + 1) rest
    ({ id := sid, name := n, width := wrap32 w } :: r.1, r.2)

/-- The `for (auto& tap : json_obj["taps"])` loop (lines 342-359):
`signal_id` starts at 1 (line 340); `cycle_time`, `samples`, `cur_sample`
are initialised to 0 (lines 347-349). -/
def load_taps_go : Nat → List manifest_tap_t → List tap_t
  | _, [] => []
  | sid, mt :: rest =>
    let r := load_signals sid mt.signals
    { id := wrap32 mt.id, width := wrap32 mt.width, samples := 0,
      cur_sample := 0, cycle_time := 0, path := mt.path, signals := r.1 }
      :: load_taps_go r.2 rest

def load_taps (mts : List manifest_tap_t) : List tap_t := load_taps_go 1 mts

/-! ### Trace-info loading (`scope.cpp` lines 371-399) -/

/-- One iteration of the `load trace info` loop for a single tap:
GET_COUNT, and if the count is non-zero, GET_START and one GET_DATA,
then `tap.samples = count` (`uint32_t` store) and
`tap.cycle_time = 1 + start + delta` (`uint64_t` arithmetic).
Returns the updated tap, the op log and the new read counter. -/
def load_tap_info (o : Nat → Nat) (k : Nat) (tap : tap_t) : tap_t × List Op × Nat :=
  let count := wrap64 (o k)
  if count = 0 then
    (tap, [Op.write (cmd_tap tap.id CMD_GET_COUNT), Op.read count], k + 1)
  else
    let start := wrap64 (o (k + 1))
    let delta := wrap64 (o (k + 2))
    ({ tap with samples := wrap32 count, cycle_time := wrap64 (1 + start + delta) },
     [Op.write (cmd_tap tap.id CMD_GET_COUNT), Op.read count,
      Op.write (cmd_tap tap.id CMD_GET_START), Op.read start,
      Op.write (cmd_tap tap.id CMD_GET_DATA), Op.read delta],
     k + 3)

/-- The whole `for (auto& tap : taps)` trace-info loop (lines 371-399). -/
def load_trace_info (o : Nat → Nat) : Nat → List tap_t → List tap_t × List Op × Nat
  | k, [] => ([], [], k)
  | k, t :: rest =>
    let r1 := load_tap_info o k t
    let r2 := load_trace_info o r1.2.2 rest
    (r1.1 :: r2.1, r1.2.1 ++ r2.2.1, r2.2.2)

/-! ### Module hierarchy and header (`scope.cpp` lines 81-145) -/

/-- Character-list worker for `split`. -/
def split_go (delim : Char) : List Char → List Char → List String
  | [], cur => if cur.isEmpty then [] else [cur.asString]
  | c :: rest, cur =>
    if c = delim then cur.asString :: split_go delim rest []
    else split_go delim rest (cur ++ [c])

/-- `split` (lines 81-89): `std::getline`-style tokenisation — a trailing
delimiter does not produce a trailing empty token, and the empty string
produces no tokens. -/
def split (s : String) (delim : Char) : List String :=
  split_go delim s.data []

/-- `std::unordered_set` insertion, modelled in insertion order. -/
def insert_unique (x : String) (l : List String) : List String :=
  if x ∈ l then l else l ++ [x]

/-- `hierarchy[parent].insert(child)` (line 130) on an association list. -/
def hier_insert : List (String × List String) → String → String → List (String × List String)
  | [], p, c => [(p, [c])]
  | (q, cs) :: rest, p, c =>
    if q = p then (q, insert_unique c cs) :: rest
    else (q, cs) :: hier_insert rest p c

/-- `tails[t] = &tap` (line 135): insert-or-assign on an association list. -/
def tails_insert : List (String × tap_t) → String → tap_t → List (String × tap_t)
  | [], t, tap => [(t, tap)]
  | (q, x) :: rest, t, tap =>
    if q = t then (q, tap) :: rest
    else (q, x) :: tails_insert rest t tap

/-- The `Build hierarchy` loop of `dump_header` (lines 126-136).
`tokens[0]` / `tokens[tokens.size()-1]` are modelled with a default for
the empty-token-list case (undefined behaviour in the C++). -/
def build_hierarchy (taps : List tap_t) :
    List (String × List String) × List String × List (String × tap_t) :=
  taps.foldl
    (fun st tap =>
      let tokens := split tap.path '.'
      let hier := (tokens.zip tokens.tail).foldl
        (fun h p => hier_insert h p.1 p.2) st.1
      let heads := insert_unique (tokens.headD "") st.2.1
      let tails := tails_insert st.2.2 (tokens.getLastD "") tap
      (hier, heads, tails))
    ([], [], [])

/-- The `$var wire` line for one signal (line 102), with the appends
associated the way the stream insertions chain. -/
def var_line (ind : String) (s : tap_signal_t) : String :=
  ind ++ " $var wire " ++ toString s.width ++ " " ++ toString s.id ++ " "
    ++ s.name ++ " $end"

/-- `dump_module` (lines 91-114).  The C++ recursion has no cycle guard
(a cyclic hierarchy map makes it recurse forever); the model carries fuel,
which `dump_header` instantiates high enough for any acyclic hierarchy. -/
def dump_module (hier : List (String × List String)) (tails : List (String × tap_t)) :
    Nat → String → Nat → List String
  | 0, _, _ => []
  | fuel + 1, name, indentation =>
    let ind := String.mk (List.replicate indentation ' ')
    ([ind ++ "$scope module " ++ name ++ " $end"] ++
      (match tails.lookup name with
       | some t => t.signals.map (var_line ind)
       | none => []) ++
      ((match hier.lookup name with
        | some cs => cs
        | none => []).map (fun c => dump_module hier tails fuel c (indentation + 1))).flatten ++
      [ind ++ "$upscope $end"])

/-- `dump_header` (lines 116-145). -/
def dump_header (taps : List tap_t) : List String :=
  let bh := build_hierarchy taps
  let fuel := taps.foldl (fun n t => n + (split t.path '.').length) 1
  ["$version Generated by Vortex Scope Analyzer $end",
   "$timescale 1 ns $end",
   "$scope module TOP $end",
   " $var wire 1 0 clk $end"] ++
  (bh.2.1.map (fun h => dump_module bh.1 bh.2.2 fuel h 1)).flatten ++
  ["$upscope $end", "enddefinitions $end"]

/-! ### Session entry points (`scope.cpp` lines 231-427)

`g_running` is the only global the stop path consults; the mutex
serialises Stop callers, so the model is the sequential function below.
The auto-stop watcher thread (lines 311-315) merely calls `vx_scope_stop`
later, i.e. it is one more caller of the same function. -/

/-- The global session state (`g_running`, line 75). -/
structure ScopeState where
  running : Bool
deriving DecidableEq, Repr

/-- Outcome of an entry point: `exn st` models a C++ exception escaping
(nlohmann `json::parse` throwing on a missing/invalid manifest) with the
global state as mutated so far; `ok` carries the returned status, the
global state, the op log and the lines written to `scope.vcd`. -/
inductive ScopeOut where
  | exn (st : ScopeState)
  | ok (status : Int) (st : ScopeState) (ops : List Op) (lines : List String)
deriving DecidableEq, Repr

/-- The state component of a `ScopeOut`. -/
def ScopeOut.state : ScopeOut → ScopeState
  | .exn st => st
  | .ok _ st _ _ => st

/-- `vx_scope_stop` (lines 320-427).  Arguments: the device handle, the
global state, the manifest file and the read oracle. -/
def vx_scope_stop (hdevice : Option Unit) (st : ScopeState)
    (m : ManifestFile) (o : Nat → Nat) : ScopeOut :=
  if hdevice.isNone then .ok (-1) st [] []
  else if !st.running then .ok 0 st [] []
  else
    let st' : ScopeState := ⟨false⟩
    match m with
    | .missing => .exn st'      -- ifstream fails; json::parse throws
    | .unparsable => .exn st'   -- json::parse throws
    | .parsedNull => .ok 0 st' [] []
    | .parsed mts =>
      let taps := load_taps mts
      -- lines 364-367: SET_STOP(0) to every tap
      let stopOps := taps.map (fun t => Op.write (cmd_set_stop t.id 0))
      let li := load_trace_info o 0 taps
      let taps := li.1
      let headerLines := dump_header taps
      -- lines 409-422
      match find_earliest_tap taps with
      | none => .ok 0 st' (stopOps ++ li.2.1) headerLines
      | some _ =>
        let fuel := (taps.map (·.samples)).sum
        let r := merge_go o fuel taps li.2.2 0
        let fin := advance_clock r.cur (r.cur + 1)
        .ok 0 st' (stopOps ++ li.2.1 ++ r.ops) (headerLines ++ r.lines ++ fin.1)

/-- The `validate scope manifest` loop of `vx_scope_start`
(lines 250-262): GET_WIDTH for each tap, aborting with status 1 on a
width mismatch (`uint32_t` manifest width against the `uint64_t`
device-reported width). -/
def validate_taps (o : Nat → Nat) : Nat → List manifest_tap_t → Bool × List Op × Nat
  | k, [] => (true, [], k)
  | k, mt :: rest =>
    let devW := wrap64 (o k)
    let ops := [Op.write (cmd_tap (wrap32 mt.id) CMD_GET_WIDTH), Op.read devW]
    if wrap32 mt.width ≠ devW then (false, ops, k + 1)
    else
      let r := validate_taps o (k + 1) rest
      (r.1, ops ++ r.2.1, r.2.2)

/-- `vx_scope_start` (lines 231-318).  `callback`/`hdevice` are nil-able;
`start_time`/`stop_time` are `uint64_t` with `(uint64_t)-1` as the
"unset" sentinel; `depth_env` is the parsed `SCOPE_DEPTH` value, if the
variable is set and parses (the C++ silently skips it otherwise).  The
timeout watcher thread only schedules a later `vx_scope_stop` call and is
not part of the returned effects. -/
def vx_scope_start (callback : Option Unit) (hdevice : Option Unit)
    (start_time stop_time : Nat) (m : ManifestFile) (depth_env : Option Nat)
    (st : ScopeState) (o : Nat → Nat) : ScopeOut :=
  if hdevice.isNone || callback.isNone then .ok (-1) st [] []
  else
    match m with
    | .missing => .ok (-1) st [] []     -- the `if (!ifs)` check, line 237
    | .unparsable => .exn st            -- json::parse throws, line 241
    | .parsedNull => .ok (-1) st [] []  -- the `is_null()` check, line 242
    | .parsed mts =>
      let v := validate_taps o 0 mts
      if !v.1 then .ok 1 st v.2.1 []
      else
        let depthOps := match depth_env with
          | none => []
          | some cs => mts.map (fun mt => Op.write (cmd_set_depth (wrap32 mt.id) (wrap32 cs)))
        let stopOps := if stop_time ≠ UINT64_MAX then
            mts.map (fun mt => Op.write (cmd_set_stop (wrap32 mt.id) stop_time))
          else []
        let startOps := if start_time ≠ UINT64_MAX then
            mts.map (fun mt => Op.write (cmd_set_start (wrap32 mt.id) start_time))
          else []
        .ok 0 ⟨true⟩ (v.2.1 ++ depthOps ++ stopOps ++ startOps) []

/-! ### Helper lemmas -/

/-- Disjoint-range bitwise or is addition: the payload/id/opcode fields of
the command words do not overlap. -/
theorem shiftLeft_or_eq_add (a k b : Nat) (h : b < 2 ^ k) :
    (a <<< k) ||| b = 2 ^ k * a + b := by
  rw [Nat.shiftLeft_eq, Nat.mul_comm, ← Nat.mul_add_lt_is_or h]

theorem wrap64_le (n : Nat) : wrap64 n ≤ n := Nat.mod_le _ _

theorem wrap64_eq_of_lt {n : Nat} (h : n < 2 ^ 64) : wrap64 n = n := Nat.mod_eq_of_lt h

theorem wrap32_eq_of_lt {n : Nat} (h : n < 2 ^ 32) : wrap32 n = n := Nat.mod_eq_of_lt h

/-- Specification of the `find_earliest_tap` scan: a `some (j, c)` result
points (relative to the running index `i`) at a candidate tap whose
`cycle_time` is `c`, and `c` is minimal among the candidates scanned and
any incoming best. -/
theorem find_earliest_aux_spec :
    ∀ (l : List tap_t) (i : Nat) (best : Option (Nat × Nat)) (j c : Nat),
      find_earliest_aux i l best = some (j, c) →
      ((∃ p, p < l.length ∧ j = i + p ∧ candidate (l.getD p tap0) ∧
          c = (l.getD p tap0).cycle_time) ∨ best = some (j, c)) ∧
      (∀ t ∈ l, candidate t → c ≤ t.cycle_time) ∧
      (∀ j' c', best = some (j', c') → c ≤ c')
  | [], i, best, j, c => by
    intro h
    simp only [find_earliest_aux] at h
    refine ⟨Or.inr h, by simp, fun j' c' hb => ?_⟩
    rw [hb] at h
    cases h
    exact le_refl _
  | t :: rest, i, best, j, c => by
    intro h
    simp only [find_earliest_aux] at h
    by_cases h0 : t.samples = 0
    · rw [if_pos h0] at h
      obtain ⟨h1, h2, h3⟩ := find_earliest_aux_spec rest (i + 1) best j c h
      refine ⟨?_, ?_, h3⟩
      · rcases h1 with ⟨p, hp, hj, hc, hcc⟩ | hb
        · exact Or.inl ⟨p + 1, by simpa using hp, by omega, by simpa using hc,
            by simpa using hcc⟩
        · exact Or.inr hb
      · intro u hu hcu
        rcases List.mem_cons.mp hu with rfl | hu'
        · exact absurd h0 hcu.1
        · exact h2 u hu' hcu
    · rw [if_neg h0] at h
      by_cases hcs : t.cur_sample = t.samples
      · rw [if_pos hcs] at h
        obtain ⟨h1, h2, h3⟩ := find_earliest_aux_spec rest (i + 1) best j c h
        refine ⟨?_, ?_, h3⟩
        · rcases h1 with ⟨p, hp, hj, hc, hcc⟩ | hb
          · exact Or.inl ⟨p + 1, by simpa using hp, by omega, by simpa using hc,
              by simpa using hcc⟩
          · exact Or.inr hb
        · intro u hu hcu
          rcases List.mem_cons.mp hu with rfl | hu'
          · exact absurd hcs hcu.2
          · exact h2 u hu' hcu
      · rw [if_neg hcs] at h
        have hct : candidate t := ⟨h0, hcs⟩
        cases hbest : best with
        | none =>
          rw [hbest] at h
          dsimp only at h
          obtain ⟨h1, h2, h3⟩ := find_earliest_aux_spec rest (i + 1)
            (some (i, t.cycle_time)) j c h
          have hle : c ≤ t.cycle_time := h3 i t.cycle_time rfl
          refine ⟨?_, ?_, by simp⟩
          · rcases h1 with ⟨p, hp, hj, hc, hcc⟩ | hb
            · exact Or.inl ⟨p + 1, by simpa using hp, by omega, by simpa using hc,
                by simpa using hcc⟩
            · cases hb
              exact Or.inl ⟨0, by simp, by omega, by simpa using hct, by simp⟩
          · intro u hu hcu
            rcases List.mem_cons.mp hu with rfl | hu'
            · exact hle
            · exact h2 u hu' hcu
        | some jc =>
          obtain ⟨j₀, c₀⟩ := jc
          rw [hbest] at h
          dsimp only at h
          by_cases hlt : t.cycle_time < c₀
          · rw [if_pos hlt] at h
            obtain ⟨h1, h2, h3⟩ := find_earliest_aux_spec rest (i + 1)
              (some (i, t.cycle_time)) j c h
            have hle : c ≤ t.cycle_time := h3 i t.cycle_time rfl
            refine ⟨?_, ?_, ?_⟩
            · rcases h1 with ⟨p, hp, hj, hc, hcc⟩ | hb
              · exact Or.inl ⟨p + 1, by simpa using hp, by omega, by simpa using hc,
                  by simpa using hcc⟩
              · cases hb
                exact Or.inl ⟨0, by simp, by omega, by simpa using hct, by simp⟩
            · intro u hu hcu
              rcases List.mem_cons.mp hu with rfl | hu'
              · exact hle
              · exact h2 u hu' hcu
            · intro j' c' hb
              cases hb
              omega
          · rw [if_neg hlt] at h
            obtain ⟨h1, h2, h3⟩ := find_earliest_aux_spec rest (i + 1)
              (some (j₀, c₀)) j c h
            have hle : c ≤ c₀ := h3 j₀ c₀ rfl
            refine ⟨?_, ?_, ?_⟩
            · rcases h1 with ⟨p, hp, hj, hc, hcc⟩ | hb
              · exact Or.inl ⟨p + 1, by simpa using hp, by omega, by simpa using hc,
                  by simpa using hcc⟩
              · exact Or.inr hb
            · intro u hu hcu
              rcases List.mem_cons.mp hu with rfl | hu'
              · omega
              · exact h2 u hu' hcu
            · intro j' c' hb
              cases hb
              exact hle

/-- `find_earliest_tap` returns the index of a candidate tap, its
`cycle_time`, and that `cycle_time` is minimal among all candidates
(lines 148-163: taps with no samples or exhausted samples are skipped;
the scan keeps the strictly earliest tap seen so far). -/
theorem find_earliest_tap_spec (taps : List tap_t) (j c : Nat)
    (h : find_earliest_tap taps = some (j, c)) :
    j < taps.length ∧ candidate (taps.getD j tap0) ∧
    c = (taps.getD j tap0).cycle_time ∧
    ∀ t ∈ taps, candidate t → c ≤ t.cycle_time := by
  obtain ⟨h1, h2, _⟩ := find_earliest_aux_spec taps 0 none j c h
  rcases h1 with ⟨p, hp, hj, hc, hcc⟩ | hb
  · have hpj : j = p := by omega
    subst hpj
    exact ⟨hp, hc, hcc, h2⟩
  · cases hb

theorem dump_tap_go_spec (o : Nat → Nat) (tapid W samples : Nat) :
    ∀ (fuel : Nat) (sig : tap_signal_t) (rest : List tap_signal_t)
      (sigOff sampOff word : Nat) (acc : DumpAcc),
      (∀ s ∈ sig :: rest, 0 < s.width) →
      sigOff < sig.width →
      sampOff + (sig.width - sigOff) + (rest.map (fun s => s.width)).sum = W →
      W - sampOff ≤ fuel →
      (dump_tap_go o tapid W samples fuel (sig :: rest) sigOff sampOff word acc).cur
          = acc.cur + 1 ∧
      ((dump_tap_go o tapid W samples fuel (sig :: rest) sigOff sampOff word acc).ct
          = acc.ct ∨
        ∃ k', (dump_tap_go o tapid W samples fuel (sig :: rest) sigOff sampOff word acc).ct
          = wrap64 (acc.ct + 1 + wrap64 (o k'))) := by
  intro fuel
  induction fuel with
  | zero =>
    intro sig rest sigOff sampOff word acc hw hoff hinv hfuel
    exact absurd hfuel (by omega)
  | succ fuel ih =>
    intro sig rest sigOff sampOff word acc hw hoff hinv hfuel
    simp only [dump_tap_go]
    by_cases hA : sigOff + 1 = sig.width
    · simp only [if_pos hA]
      by_cases hB : sampOff + 1 = W
      · simp only [if_pos hB]
        by_cases hC : acc.cur + 1 ≠ samples
        · simp only [if_pos hC]
          refine ⟨by trivial, Or.inr ⟨acc.k, by simp⟩⟩
        · simp only [if_neg hC]
          exact ⟨by trivial, Or.inl (by simp)⟩
      · simp only [if_neg hB]
        rcases rest with _ | ⟨r1, rest'⟩
        · exfalso
          simp only [List.map_nil, List.sum_nil] at hinv
          omega
        · by_cases hD : (sampOff + 1) % 64 ≠ 0
          · simp only [if_pos hD]
            exact ih r1 rest' 0 (sampOff + 1) word _
              (fun s hs => hw s (List.mem_cons_of_mem _ hs))
              (hw r1 (by simp))
              (by simp only [List.map_cons, List.sum_cons] at hinv ⊢; omega)
              (by omega)
          · simp only [if_neg hD]
            exact ih r1 rest' 0 (sampOff + 1) _ _
              (fun s hs => hw s (List.mem_cons_of_mem _ hs))
              (hw r1 (by simp))
              (by simp only [List.map_cons, List.sum_cons] at hinv ⊢; omega)
              (by omega)
    · simp only [if_neg hA]
      by_cases hD : (sampOff + 1) % 64 ≠ 0
      · simp only [if_pos hD]
        exact ih sig rest (sigOff + 1) (sampOff + 1) word _ hw (by omega) (by omega) (by omega)
      · simp only [if_neg hD]
        by_cases hE : sampOff + 1 = W
        · exact absurd hE (by omega)
        · simp only [if_neg hE]
          exact ih sig rest (sigOff + 1) (sampOff + 1) _ _ hw (by omega) (by omega) (by omega)

/-- A well-formed tap: non-empty signal list, positive sub-signal widths
summing to the tap width. -/
def valid_tap (t : tap_t) : Prop :=
  t.signals ≠ [] ∧ (∀ s ∈ t.signals, 0 < s.width) ∧
    (t.signals.map (fun s => s.width)).sum = t.width

theorem dump_tap_spec (o : Nat → Nat) (k : Nat) (tap : tap_t) (hv : valid_tap tap) :
    (dump_tap o k tap).2.id = tap.id ∧
    (dump_tap o k tap).2.width = tap.width ∧
    (dump_tap o k tap).2.samples = tap.samples ∧
    (dump_tap o k tap).2.path = tap.path ∧
    (dump_tap o k tap).2.signals = tap.signals ∧
    (dump_tap o k tap).2.cur_sample = tap.cur_sample + 1 ∧
    ((dump_tap o k tap).2.cycle_time = tap.cycle_time ∨
      ∃ k', (dump_tap o k tap).2.cycle_time
        = wrap64 (tap.cycle_time + 1 + wrap64 (o k'))) := by
  obtain ⟨hne, hw, hsum⟩ := hv
  rcases hrev : tap.signals.reverse with _ | ⟨s, rest⟩
  · exact absurd (by simpa using congrArg List.reverse hrev) hne
  · have hw' : ∀ x ∈ s :: rest, 0 < x.width := by
      intro x hx
      refine hw x ?_
      rw [← List.mem_reverse, hrev]
      exact hx
    have hs0 : 0 < s.width := hw' s (by simp)
    have hinv : 0 + (s.width - 0) + (rest.map (fun x => x.width)).sum = tap.width := by
      have hsum' : ((s :: rest).map (fun x => x.width)).sum = tap.width := by
        rw [← hrev, List.map_reverse, List.sum_reverse]
        exact hsum
      simp only [List.map_cons, List.sum_cons] at hsum'
      omega
    obtain ⟨hcur, hct⟩ := dump_tap_go_spec o tap.id tap.width tap.samples tap.width
      s rest 0 0 (wrap64 (o k))
      { lines := [], ops := [Op.write (cmd_tap tap.id CMD_GET_DATA), Op.read (wrap64 (o k))],
        widx := [], k := k + 1, cur := tap.cur_sample, ct := tap.cycle_time,
        buf := List.replicate tap.width (Char.ofNat 0) }
      hw' hs0 hinv (by omega)
    simp only [dump_tap, hrev]
    exact ⟨trivial, trivial, trivial, trivial, trivial, hcur, hct⟩

theorem getD_mem_of_lt {l : List tap_t} {j : Nat} (h : j < l.length) :
    l.getD j tap0 ∈ l := by
  rw [List.getD_eq_getElem?_getD, List.getElem?_eq_getElem h]
  exact List.getElem_mem h

theorem merge_go_chain (o : Nat → Nat) (D : Nat) (hD : ∀ i, o i ≤ D) :
    ∀ (fuel : Nat) (taps : List tap_t) (k cur τ : Nat),
      (∀ t ∈ taps, valid_tap t) →
      (∀ t ∈ taps, t.cycle_time + fuel * (1 + D) < 2 ^ 64) →
      (∀ t ∈ taps, candidate t → τ ≤ t.cycle_time) →
      List.Chain' (· ≤ ·) (τ :: (merge_go o fuel taps k cur).trace.map Prod.snd)
  | 0, taps, k, cur, τ, hval, hB, hτ => by
    simp [merge_go]
  | fuel + 1, taps, k, cur, τ, hval, hB, hτ => by
    rcases hf : find_earliest_tap taps with _ | ⟨j, ct⟩
    · simp [merge_go, hf]
    · obtain ⟨hjlen, hcand, hctj, hmin⟩ := find_earliest_tap_spec taps j ct hf
      have hmem : taps.getD j tap0 ∈ taps := getD_mem_of_lt hjlen
      obtain ⟨hid, hwid, hsamp, hpath, hsig, hcur, hct⟩ :=
        dump_tap_spec o k (taps.getD j tap0) (hval _ hmem)
      have hBj := hB _ hmem
      have hmul : (fuel + 1) * (1 + D) = fuel * (1 + D) + (1 + D) := by ring
      -- the dispatched tap's new cycle_time is between ct and ct + 1 + D
      have hub : (dump_tap o k (taps.getD j tap0)).2.cycle_time
          ≤ (taps.getD j tap0).cycle_time + 1 + D := by
        rcases hct with h | ⟨k', h⟩
        · omega
        · have h1 : wrap64 ((taps.getD j tap0).cycle_time + 1 + wrap64 (o k'))
              ≤ (taps.getD j tap0).cycle_time + 1 + wrap64 (o k') := wrap64_le _
          have h2 : wrap64 (o k') ≤ o k' := wrap64_le _
          have h3 := hD k'
          omega
      have hlb : (taps.getD j tap0).cycle_time
          ≤ (dump_tap o k (taps.getD j tap0)).2.cycle_time := by
        rcases hct with h | ⟨k', h⟩
        · omega
        · have h2 : wrap64 (o k') ≤ o k' := wrap64_le _
          have h3 := hD k'
          have harg : (taps.getD j tap0).cycle_time + 1 + wrap64 (o k') < 2 ^ 64 := by
            omega
          rw [h, wrap64_eq_of_lt harg]
          omega
      simp only [merge_go, hf, List.map_cons]
      rw [List.chain'_cons]
      constructor
      · rw [hctj]
        exact hτ _ hmem hcand
      · apply merge_go_chain o D hD fuel
        · intro t ht
          rcases List.mem_or_eq_of_mem_set ht with ht' | rfl
          · exact hval t ht'
          · unfold valid_tap
            rw [hsig, hwid]
            exact hval _ hmem
        · intro t ht
          rcases List.mem_or_eq_of_mem_set ht with ht' | rfl
          · have := hB t ht'
            omega
          · omega
        · intro t ht hcandt
          rcases List.mem_or_eq_of_mem_set ht with ht' | rfl
          · exact hmin t ht' hcandt
          · omega

/-- `dump_tap` never changes the `samples` field (only `cur_sample` and
`cycle_time` are written back, lines 208/213). -/
theorem dump_tap_samples (o : Nat → Nat) (k : Nat) (tap : tap_t) :
    (dump_tap o k tap).2.samples = tap.samples := by
  unfold dump_tap
  split
  · rfl
  · rfl

theorem getD_set_self {l : List tap_t} {j : Nat} (h : j < l.length) (a : tap_t) :
    (l.set j a).getD j tap0 = a := by
  simp [List.getD_eq_getElem?_getD, List.getElem?_set, h]

theorem getD_set_other {l : List tap_t} {i j : Nat} (h : i ≠ j) (a : tap_t) :
    (l.set j a).getD i tap0 = l.getD i tap0 := by
  simp [List.getD_eq_getElem?_getD, List.getElem?_set, Ne.symm h]

/-- Every dispatch recorded by the merge loop names an in-range tap whose
(initial) sample count is non-zero: `find_earliest_tap` skips
`samples == 0` taps, and `dump_tap` never changes `samples`. -/
theorem merge_go_trace_spec (o : Nat → Nat) :
    ∀ (fuel : Nat) (taps : List tap_t) (k cur j c : Nat),
      (j, c) ∈ (merge_go o fuel taps k cur).trace →
      j < taps.length ∧ (taps.getD j tap0).samples ≠ 0
  | 0, taps, k, cur, j, c => by simp [merge_go]
  | fuel + 1, taps, k, cur, j, c => by
    rcases hf : find_earliest_tap taps with _ | ⟨j₀, ct⟩
    · simp [merge_go, hf]
    · intro hmem
      simp only [merge_go, hf, List.mem_cons] at hmem
      obtain ⟨hjlen, hcand, _, _⟩ := find_earliest_tap_spec taps j₀ ct hf
      rcases hmem with heq | hmem
      · cases heq
        exact ⟨hjlen, hcand.1⟩
      · obtain ⟨hlen', hs'⟩ := merge_go_trace_spec o fuel _ _ _ j c hmem
        rw [List.length_set] at hlen'
        refine ⟨hlen', ?_⟩
        by_cases hjj : j = j₀
        · subst hjj
          rw [getD_set_self hjlen] at hs'
          rw [dump_tap_samples] at hs'
          exact hs'
        · rw [getD_set_other hjj] at hs'
          exact hs'

/-- A line starting with `#` is never a value line. -/
theorem hash_ne_bx (s : String) : "#" ++ s ≠ "bx 0" := by
  intro h
  have hd := congrArg String.data h
  simp [String.data_append] at hd

/-- Joint specification of the `while (cur_time < next_time)` loop body:
it emits four lines (two timestamped half-periods) per cycle, advances
the cursor once per cycle, and never emits an unknown-value line. -/
theorem clock_go_spec :
    ∀ (n cur : Nat),
      (clock_go cur n).1.length = 4 * n ∧
      (clock_go cur n).2 = cur + n ∧
      "bx 0" ∉ (clock_go cur n).1
  | 0, cur => by
    refine ⟨rfl, rfl, ?_⟩
    simp [clock_go]
  | n + 1, cur => by
    obtain ⟨ihlen, ihsnd, ihmem⟩ := clock_go_spec n (cur + 1)
    refine ⟨?_, ?_, ?_⟩
    · simp only [clock_go, List.length_append, List.length_cons, List.length_nil, ihlen]
      omega
    · simp only [clock_go, ihsnd]
      omega
    · intro hmem
      simp only [clock_go, List.mem_append, List.mem_cons, List.mem_singleton] at hmem
      rcases hmem with (h | h | h | h | h) | h
      · exact hash_ne_bx _ h.symm
      · simp at h
      · exact hash_ne_bx _ h.symm
      · simp at h
      · simp at h
      · exact ihmem h

/-- The `while` loop ends at the target time (or stays put when already
past it), emits four lines per pending cycle and no unknown-value line. -/
theorem clock_run_spec (cur next : Nat) :
    (clock_run cur next).1.length = 4 * (next - cur) ∧
    (clock_run cur next).2 = (if cur < next then next else cur) ∧
    "bx 0" ∉ (clock_run cur next).1 := by
  obtain ⟨hlen, hsnd, hmem⟩ := clock_go_spec (next - cur) cur
  refine ⟨hlen, ?_, hmem⟩
  rw [clock_run, hsnd]
  by_cases h : cur < next
  · rw [if_pos h]
    omega
  · rw [if_neg h]
    omega

attribute [irreducible] clock_go clock_run


/-- `uint64_t` subtraction agrees with truncated subtraction when the
minuend is in range and no underflow occurs. -/
theorem sub64_eq (a b : Nat) (hb : b ≤ a) (ha : a < 2 ^ 64) :
    sub64 a b = a - b := by
  unfold sub64
  rw [Nat.add_sub_assoc hb, Nat.add_mod_left, Nat.mod_eq_of_lt (by omega)]

/-- Unfolding of `advance_clock` in the large-gap branch (lines 167-173):
two unknown-value half-periods at the current time, then the normal loop
from `next_time - MAX_DELAY_CYCLES` (`uint64_t` subtraction). -/
theorem advance_clock_gap (cur next : Nat)
    (h : MAX_DELAY_CYCLES < sub64 next cur) :
    advance_clock cur next
      = (["#" ++ toString (wrap64 (cur * 2)), "bx 0",
          "#" ++ toString (wrap64 (cur * 2 + 1)), "bx 0"]
         ++ (clock_run (sub64 next MAX_DELAY_CYCLES) next).1,
         (clock_run (sub64 next MAX_DELAY_CYCLES) next).2) := by
  unfold advance_clock
  rw [if_pos h]

/-- Claim C4 (confirmed): for every clock advance from `cur` to `next`
with `next - cur` strictly greater than `MAX_DELAY_CYCLES` (10,000),
`advance_clock` emits exactly two `x`-valued half-period entries, at
timestamps `2*cur` and `2*cur+1`, then sets the cursor to `next - 10000`
and emits the normal half-periods from there (4 lines per cycle for
exactly 10,000 cycles, rather than one pair per skipped cycle), and
returns `next`.  In particular, advancing from 0 to 20,000 emits the two
`x` sentinels at time 0 and jumps the cursor to 10,000. -/
theorem C4_advance_clock_large_gap (cur next : Nat) (h1 : cur ≤ next)
    (h2 : MAX_DELAY_CYCLES < next - cur) (h3 : next < 2 ^ 63) :
    advance_clock cur next
      = (["#" ++ toString (2 * cur), "bx 0", "#" ++ toString (2 * cur + 1), "bx 0"]
          ++ (clock_run (next - MAX_DELAY_CYCLES) next).1, next) ∧
    (clock_run (next - MAX_DELAY_CYCLES) next).1.length = 4 * MAX_DELAY_CYCLES ∧
    (["#" ++ toString (2 * cur), "bx 0", "#" ++ toString (2 * cur + 1), "bx 0"]
        ++ (clock_run (next - MAX_DELAY_CYCLES) next).1).count "bx 0" = 2 := by
  have hM : MAX_DELAY_CYCLES = 10000 := rfl
  have h64 : next < 2 ^ 64 := by
    have e63 : (2 : Nat) ^ 63 = 9223372036854775808 := by norm_num
    have e64 : (2 : Nat) ^ 64 = 18446744073709551616 := by norm_num
    omega
  have hδ : sub64 next cur = next - cur := sub64_eq next cur h1 h64
  have hcur2 : sub64 next MAX_DELAY_CYCLES = next - MAX_DELAY_CYCLES :=
    sub64_eq next MAX_DELAY_CYCLES (by rw [hM]; omega) h64
  have hw1 : wrap64 (cur * 2) = 2 * cur := by
    unfold wrap64
    rw [Nat.mod_eq_of_lt]
    · omega
    · have e63 : (2 : Nat) ^ 63 = 9223372036854775808 := by norm_num
      have e64 : (2 : Nat) ^ 64 = 18446744073709551616 := by norm_num
      omega
  have hw2 : wrap64 (cur * 2 + 1) = 2 * cur + 1 := by
    unfold wrap64
    rw [Nat.mod_eq_of_lt]
    · omega
    · have e63 : (2 : Nat) ^ 63 = 9223372036854775808 := by norm_num
      have e64 : (2 : Nat) ^ 64 = 18446744073709551616 := by norm_num
      omega
  have hgap : MAX_DELAY_CYCLES < sub64 next cur := by
    rw [hδ]
    exact h2
  obtain ⟨hlen, hsnd, hmem⟩ := clock_run_spec (next - MAX_DELAY_CYCLES) next
  refine ⟨?_, ?_, ?_⟩
  · rw [advance_clock_gap cur next hgap, hcur2, hw1, hw2, hsnd,
      if_pos (show next - MAX_DELAY_CYCLES < next by rw [hM]; omega)]
  · rw [hlen, hM]
    omega
  · rw [List.count_append]
    have hz : (clock_run (next - MAX_DELAY_CYCLES) next).1.count "bx 0" = 0 :=
      List.count_eq_zero.mpr hmem
    rw [hz]
    have hb1 : (("#" ++ toString (2 * cur)) == "bx 0") = false :=
      beq_false_of_ne (hash_ne_bx _)
    have hb2 : (("#" ++ toString (2 * cur + 1)) == "bx 0") = false :=
      beq_false_of_ne (hash_ne_bx _)
    simp [List.count_cons, hb1, hb2]

/-- Witness for C4 at the claim's own instance: advancing the clock from
time 0 to time 20,000. -/
theorem C4_advance_clock_large_gap_witness :
    advance_clock 0 20000
      = (["#" ++ toString (2 * 0), "bx 0", "#" ++ toString (2 * 0 + 1), "bx 0"]
          ++ (clock_run (20000 - MAX_DELAY_CYCLES) 20000).1, 20000) ∧
    (clock_run (20000 - MAX_DELAY_CYCLES) 20000).1.length = 4 * MAX_DELAY_CYCLES ∧
    (["#" ++ toString (2 * 0), "bx 0", "#" ++ toString (2 * 0 + 1), "bx 0"]
        ++ (clock_run (20000 - MAX_DELAY_CYCLES) 20000).1).count "bx 0" = 2 :=
  C4_advance_clock_large_gap 0 20000 (by omega) (by decide) (by norm_num)

/-! ### Claim C1: decode order of the width-{1,3} example -/

/-- The tap of the C1 example: width 4, sub-signals of widths 1 and 3 (in
manifest order, with ids 1 and 2 as the loader assigns), 2 samples
pending, so the decoder also fetches an inter-sample delta. -/
def c1_tap : tap_t :=
  { id := 7, width := 4, samples := 2, cur_sample := 0, cycle_time := 5,
    path := "top.t",
    signals := [{ id := 1, name := "a", width := 1 },
                { id := 2, name := "b", width := 3 }] }

/-- The C1 device stream: the first GET_DATA word carries the sample bits
`1011` (value 11, bit 0 extracted first), the second read returns the
inter-sample delta 0. -/
def c1_oracle : Nat → Nat := fun k => if k = 0 then 11 else 0

/-- Claim C1, counterexample: on the claim's own example (one tap of width
4 with sub-signal widths {1,3}, input word bits `1011`), the decoder does
not emit `b1` before `b011`: the reverse iterator starts at the *last*
sub-signal (width 3), which therefore completes and is emitted first. -/
theorem C1_counterexample :
    (dump_tap c1_oracle 0 c1_tap).1.lines ≠ ["b1 1", "b011 2"] := by decide

/-- Claim C1 (amended): the decoder unpacks bits LSB-first out of the
64-bit GET_DATA word, starting with the last sub-signal in the signal
list and filling its value buffer backward from the most significant
position, emitting each completed sub-signal immediately; on the width-4
{1,3} example with input bits `1011` this emits `b011` (the width-3 last
sub-signal, from bits 2..0) and then `b1` (the width-1 first sub-signal,
from bit 3), in that order, and consumes one sample plus one delta word. -/
theorem C1_decode_order :
    (dump_tap c1_oracle 0 c1_tap).1.lines = ["b011 2", "b1 1"] ∧
    (dump_tap c1_oracle 0 c1_tap).2.cur_sample = 1 ∧
    (dump_tap c1_oracle 0 c1_tap).1.ops =
      [Op.write (cmd_tap 7 CMD_GET_DATA), Op.read 11,
       Op.write (cmd_tap 7 CMD_GET_DATA), Op.read 0] := by decide

/-! ### Claim C10: bounds of the signal_data stores -/

/-- A tap with a single sub-signal whose width equals the tap width (the
case the claim singles out). -/
def c10_tap : tap_t :=
  { id := 3, width := 4, samples := 1, cur_sample := 0, cycle_time := 0,
    path := "top.u",
    signals := [{ id := 1, name := "s", width := 4 }] }

/-- Claim C10 (code bug): decoding one sample of a single-sub-signal tap
of width 4 stores to `signal_data` indices 3,2,1,0 (the bit fills) and
then 4 (the null termination at index `signal_width`), but the buffer
`std::vector<char> signal_data(tap->width)` has size 4, so the null store
at index 4 is out of bounds. -/
theorem C10_null_store_out_of_bounds :
    c10_tap.width = 4 ∧
    (dump_tap c1_oracle 0 c10_tap).1.widx = [3, 2, 1, 0, 4] ∧
    ¬ (∀ i ∈ (dump_tap c1_oracle 0 c10_tap).1.widx, i < c10_tap.width) := by
  refine ⟨rfl, by decide, ?_⟩
  intro h
  have h4 := h 4 (by decide)
  have hw : c10_tap.width = 4 := rfl
  omega

/-! ### Claim C5: register command encoding -/

/-- Getter commands: `(id << 3) | opc` is `id * 8 + opc` for in-range ids. -/
theorem cmd_tap_eq (id opc : Nat) (hid : id < 2 ^ 29) (hopc : opc < 8) :
    cmd_tap id opc = id * 8 + opc := by
  unfold cmd_tap wrap32
  rw [Nat.shiftLeft_eq, Nat.mod_eq_of_lt (by omega),
    show id * 2 ^ 3 = 2 ^ 3 * id by ring, ← Nat.mul_add_lt_is_or (by omega) id]
  ring

/-- The shared payload-carrying layout `(payload << 11) | (id << 3) | opc`. -/
theorem payload_cmd_eq (id payload opc : Nat) (hid : id < 256) (hopc : opc < 8) :
    (payload <<< 11) ||| (id <<< 3) ||| opc = payload * 2 ^ 11 + id * 8 + opc := by
  have h1 : id <<< 3 = id * 8 := by
    rw [Nat.shiftLeft_eq]
  have h2 : (payload <<< 11) ||| (id <<< 3) = 2 ^ 11 * payload + id * 8 := by
    rw [h1]
    exact shiftLeft_or_eq_add payload 11 (id * 8) (by omega)
  rw [h2, show 2 ^ 11 * payload + id * 8 = 2 ^ 3 * (2 ^ 8 * payload + id) by ring,
    ← Nat.mul_add_lt_is_or (by omega) (2 ^ 8 * payload + id)]
  ring

/-- The command encoding formula exactly as the claim words it:
`(payload << 3) | opcode | (tap_id << 3)`. -/
def claim_formula_cmd (payload opcode tap_id : Nat) : Nat :=
  (payload <<< 3) ||| opcode ||| (tap_id <<< 3)

/-- Claim C5, counterexample: the claimed formula puts the payload at bit
3, but the code puts it at bit 11: for tap id 0, payload 1, CMD_SET_DEPTH
the code produces `(1 << 11) | (0 << 3) | 6 = 2054` while the claim's
formula gives `(1 << 3) | 6 | (0 << 3) = 14`. -/
theorem C5_counterexample :
    cmd_set_depth 0 1 = 2054 ∧ claim_formula_cmd 1 CMD_SET_DEPTH 0 = 14 ∧
    cmd_set_depth 0 1 ≠ claim_formula_cmd 1 CMD_SET_DEPTH 0 := by decide

/-- Claim C5 (amended): every tap-scoped command word carries the opcode
(GET_WIDTH=0, GET_COUNT=1, GET_START=2, GET_DATA=3, SET_START=4,
SET_STOP=5, SET_DEPTH=6) in bits 0-2 and the tap id in bits 3-10,
following `(tap_id << 3) | opcode` for the getters and
`(payload << 11) | (tap_id << 3) | opcode` for SET_DEPTH/SET_STOP/
SET_START, with the payload occupying the bits above bit 10 (the depth
payload is computed in 32 bits, hence the tighter bound). -/
theorem C5_command_encoding (id payload : Nat) (hid : id < 256)
    (hpd : payload < 2 ^ 21) :
    cmd_tap id CMD_GET_WIDTH = id * 8 + 0 ∧
    cmd_tap id CMD_GET_COUNT = id * 8 + 1 ∧
    cmd_tap id CMD_GET_START = id * 8 + 2 ∧
    cmd_tap id CMD_GET_DATA = id * 8 + 3 ∧
    cmd_set_depth id payload = payload * 2 ^ 11 + id * 8 + CMD_SET_DEPTH ∧
    cmd_set_stop id payload = payload * 2 ^ 11 + id * 8 + CMD_SET_STOP ∧
    cmd_set_start id payload = payload * 2 ^ 11 + id * 8 + CMD_SET_START ∧
    (∀ opc, opc < 8 →
      (payload * 2 ^ 11 + id * 8 + opc) % 8 = opc ∧
      (payload * 2 ^ 11 + id * 8 + opc) / 8 % 256 = id ∧
      (payload * 2 ^ 11 + id * 8 + opc) / 2 ^ 11 = payload) := by
  have hid' : id < 2 ^ 29 := by omega
  have hpay : (payload <<< 11) ||| (id <<< 3) ||| CMD_SET_DEPTH
      = payload * 2 ^ 11 + id * 8 + CMD_SET_DEPTH :=
    payload_cmd_eq id payload CMD_SET_DEPTH hid (by decide)
  refine ⟨cmd_tap_eq id 0 hid' (by decide), cmd_tap_eq id 1 hid' (by decide),
    cmd_tap_eq id 2 hid' (by decide), cmd_tap_eq id 3 hid' (by decide),
    ?_, ?_, ?_, ?_⟩
  · unfold cmd_set_depth wrap32
    rw [hpay, Nat.mod_eq_of_lt (by unfold CMD_SET_DEPTH; omega)]
  · unfold cmd_set_stop
    have hw : wrap64 (payload <<< 11) = payload <<< 11 := by
      unfold wrap64
      rw [Nat.shiftLeft_eq, Nat.mod_eq_of_lt (by omega)]
    have hw3 : wrap32 (id <<< 3) = id <<< 3 := by
      unfold wrap32
      rw [Nat.shiftLeft_eq, Nat.mod_eq_of_lt (by omega)]
    rw [hw, hw3]
    exact payload_cmd_eq id payload CMD_SET_STOP hid (by decide)
  · unfold cmd_set_start
    have hw : wrap64 (payload <<< 11) = payload <<< 11 := by
      unfold wrap64
      rw [Nat.shiftLeft_eq, Nat.mod_eq_of_lt (by omega)]
    have hw3 : wrap32 (id <<< 3) = id <<< 3 := by
      unfold wrap32
      rw [Nat.shiftLeft_eq, Nat.mod_eq_of_lt (by omega)]
    rw [hw, hw3]
    exact payload_cmd_eq id payload CMD_SET_START hid (by decide)
  · intro opc hopc
    refine ⟨by omega, by omega, by omega⟩

/-- Witness for C5 at tap id 3, payload 5. -/
theorem C5_command_encoding_witness :
    (3 : Nat) < 256 ∧ (5 : Nat) < 2 ^ 21 ∧
    (cmd_tap 3 CMD_GET_WIDTH = 3 * 8 + 0 ∧
     cmd_tap 3 CMD_GET_COUNT = 3 * 8 + 1 ∧
     cmd_tap 3 CMD_GET_START = 3 * 8 + 2 ∧
     cmd_tap 3 CMD_GET_DATA = 3 * 8 + 3 ∧
     cmd_set_depth 3 5 = 5 * 2 ^ 11 + 3 * 8 + CMD_SET_DEPTH ∧
     cmd_set_stop 3 5 = 5 * 2 ^ 11 + 3 * 8 + CMD_SET_STOP ∧
     cmd_set_start 3 5 = 5 * 2 ^ 11 + 3 * 8 + CMD_SET_START ∧
     (∀ opc, opc < 8 →
       (5 * 2 ^ 11 + 3 * 8 + opc) % 8 = opc ∧
       (5 * 2 ^ 11 + 3 * 8 + opc) / 8 % 256 = 3 ∧
       (5 * 2 ^ 11 + 3 * 8 + opc) / 2 ^ 11 = 5)) :=
  ⟨by decide, by decide, C5_command_encoding 3 5 (by decide) (by decide)⟩

/-! ### Claim C2: earliest-first merge and time ordering -/

instance valid_tap_decidable (t : tap_t) : Decidable (valid_tap t) :=
  inferInstanceAs (Decidable (t.signals ≠ [] ∧ (∀ s ∈ t.signals, 0 < s.width) ∧
    (t.signals.map (fun s => s.width)).sum = t.width))

/-- First tap of the C2 counterexample: two samples pending at time 5. -/
def c2_tapA : tap_t :=
  { id := 0, width := 1, samples := 2, cur_sample := 0, cycle_time := 5,
    path := "x.a", signals := [{ id := 1, name := "s", width := 1 }] }

/-- Second tap of the C2 counterexample: one sample pending at time 10. -/
def c2_tapB : tap_t :=
  { id := 1, width := 1, samples := 1, cur_sample := 0, cycle_time := 10,
    path := "x.b", signals := [{ id := 2, name := "t", width := 1 }] }

/-- A device whose second read (the inter-sample delta of tap A) is
`2^64 - 4`, so `cycle_time += 1 + delta` wraps the `uint64_t` counter
from 5 down to 2. -/
def c2_oracle : Nat → Nat := fun k => if k = 1 then 2 ^ 64 - 4 else 1

/-- Claim C2, counterexample: with a delta of `2^64 - 4`, tap A's
`cycle_time` wraps from 5 to `(5 + 1 + (2^64 - 4)) mod 2^64 = 2`, so the
merge dispatches at times 5, 2, 10 — not non-decreasing.  Each dispatch
still picks the numerically smallest `cycle_time` among candidates; it is
the wrapped per-tap update that breaks global monotonicity. -/
theorem C2_counterexample :
    (merge_go c2_oracle 3 [c2_tapA, c2_tapB] 0 0).trace.map Prod.snd = [5, 2, 10] ∧
    ¬ List.Chain' (· ≤ ·)
      ((merge_go c2_oracle 3 [c2_tapA, c2_tapB] 0 0).trace.map Prod.snd) := by
  have h : (merge_go c2_oracle 3 [c2_tapA, c2_tapB] 0 0).trace.map Prod.snd
      = [5, 2, 10] := by decide
  refine ⟨h, ?_⟩
  intro hc
  rw [h] at hc
  exact absurd (List.chain'_cons.mp hc).1 (by omega)

/-- Claim C2 (amended): for every set of well-formed taps, the merge loop
dispatches, among taps with `samples > 0` and `cur_sample < samples`, one
whose `cycle_time` is numerically smallest; provided no per-tap
`cycle_time += 1 + delta` update wraps the 64-bit counter (guaranteed by
the stated bound on the device's responses), the sequence of `cycle_time`
values of dispatched samples is non-decreasing across all taps combined. -/
theorem C2_merge_monotone (o : Nat → Nat) (D fuel k cur : Nat) (taps : List tap_t)
    (hval : ∀ t ∈ taps, valid_tap t)
    (hD : ∀ i, o i ≤ D)
    (hB : ∀ t ∈ taps, t.cycle_time + fuel * (1 + D) < 2 ^ 64) :
    List.Chain' (· ≤ ·) ((merge_go o fuel taps k cur).trace.map Prod.snd) :=
  (merge_go_chain o D hD fuel taps k cur 0 hval hB (fun _ _ _ => Nat.zero_le _)).tail

/-- Witness for C2: a single valid one-sample tap with an all-zero device. -/
theorem C2_merge_monotone_witness :
    List.Chain' (· ≤ ·)
      ((merge_go (fun _ => 0) 1 [c2_tapB] 0 0).trace.map Prod.snd) :=
  C2_merge_monotone (fun _ => 0) 0 1 0 0 [c2_tapB]
    (by decide) (fun _ => Nat.le_refl 0) (by decide)

/-! ### Claim C3: Stop is idempotent -/

/-- Claim C3 (confirmed): any completed `vx_scope_stop` call on a valid
handle leaves the session not running (whether it dumped, bailed on a
null manifest, or threw), and a subsequent `vx_scope_stop` call on a
valid handle is a no-op: it returns status 0, keeps the state, performs
no register writes or reads and writes nothing to the output file.  The
first caller may equally be the timeout watcher, which invokes the same
function. -/
theorem C3_stop_idempotent (hd hd' : Unit) (st : ScopeState) (m m' : ManifestFile)
    (o o' : Nat → Nat) :
    (vx_scope_stop (some hd) st m o).state.running = false ∧
    vx_scope_stop (some hd') ((vx_scope_stop (some hd) st m o).state) m' o'
      = .ok 0 ((vx_scope_stop (some hd) st m o).state) [] [] := by
  have hrun : (vx_scope_stop (some hd) st m o).state.running = false := by
    rcases st with ⟨r⟩
    cases r
    · rfl
    · cases m with
      | missing => rfl
      | unparsable => rfl
      | parsedNull => rfl
      | parsed mts =>
        rw [vx_scope_stop]
        simp only [Option.isNone_some, Bool.false_eq_true, if_false, Bool.not_true,
          Bool.false_eq_true, if_false]
        rcases hf : find_earliest_tap (load_trace_info o 0 (load_taps mts)).1 with _ | p
        · simp only [hf]
          rfl
        · simp only [hf]
          rfl
  refine ⟨hrun, ?_⟩
  rw [vx_scope_stop]
  rw [show ((vx_scope_stop (some hd) st m o).state).running = false from hrun]
  rfl

/-! ### Claim C8: input-error handling of the entry points -/

/-- The returned status of an entry point, `none` when a C++ exception
escaped instead of a status being returned. -/
def ScopeOut.status : ScopeOut → Option Int
  | .exn _ => none
  | .ok s _ _ _ => some s

/-- Claim C8, counterexample: `vx_scope_stop` on a running session whose
manifest parses to JSON `null` returns status 0 — success, not the
claimed non-zero status (line 337-338: `if (json_obj.is_null()) return 0;`). -/
theorem C8_counterexample :
    (vx_scope_stop (some ()) ⟨true⟩ .parsedNull (fun _ => 0)).status = some 0 ∧
    ¬ (∀ s, (vx_scope_stop (some ()) ⟨true⟩ .parsedNull (fun _ => 0)).status
        = some s → s ≠ 0) :=
  ⟨rfl, fun h => h 0 rfl rfl⟩

/-- Claim C8 (amended): `vx_scope_start` returns -1 immediately, with no
device I/O, when the handle or callback is nil, when the manifest file is
missing, or when it parses to JSON `null`; an unparsable manifest raises
a C++ exception (nlohmann `json::parse` throws) rather than returning a
status, still with no device I/O.  `vx_scope_stop` returns -1 with no
device I/O for a nil handle; for a running session it returns 0 (success,
not non-zero) with no device I/O and no file output when the manifest
parses to `null`, and raises for a missing or unparsable manifest, again
with no device I/O. -/
theorem C8_input_errors (cb hd : Unit) (t1 t2 : Nat) (m : ManifestFile)
    (d : Option Nat) (st : ScopeState) (o : Nat → Nat) :
    vx_scope_start none none t1 t2 m d st o = .ok (-1) st [] [] ∧
    vx_scope_start (some cb) none t1 t2 m d st o = .ok (-1) st [] [] ∧
    vx_scope_start none (some hd) t1 t2 m d st o = .ok (-1) st [] [] ∧
    vx_scope_start (some cb) (some hd) t1 t2 .missing d st o = .ok (-1) st [] [] ∧
    vx_scope_start (some cb) (some hd) t1 t2 .parsedNull d st o = .ok (-1) st [] [] ∧
    vx_scope_start (some cb) (some hd) t1 t2 .unparsable d st o = .exn st ∧
    vx_scope_stop none st m o = .ok (-1) st [] [] ∧
    vx_scope_stop (some hd) ⟨true⟩ .parsedNull o = .ok 0 ⟨false⟩ [] [] ∧
    vx_scope_stop (some hd) ⟨true⟩ .missing o = .exn ⟨false⟩ ∧
    vx_scope_stop (some hd) ⟨true⟩ .unparsable o = .exn ⟨false⟩ :=
  ⟨rfl, rfl, rfl, rfl, rfl, rfl, rfl, rfl, rfl, rfl⟩

/-! ### Claim C6: per-tap trace-info loading -/

/-- Claim C6 (confirmed): during Stop, a tap whose GET_COUNT response is
non-zero receives exactly one GET_START and one GET_DATA request/response
pair, in that order after the GET_COUNT pair, and its initial
`cycle_time` becomes `1 + start + delta` (exact, i.e. without 64-bit
wraparound, under the stated bounds on the two responses). -/
theorem C6_trace_info (o : Nat → Nat) (k : Nat) (tap : tap_t)
    (hcount : wrap64 (o k) ≠ 0)
    (hs : o (k + 1) < 2 ^ 63) (hd : o (k + 2) < 2 ^ 63) :
    (load_tap_info o k tap).2.1 =
      [Op.write (cmd_tap tap.id CMD_GET_COUNT), Op.read (wrap64 (o k)),
       Op.write (cmd_tap tap.id CMD_GET_START), Op.read (o (k + 1)),
       Op.write (cmd_tap tap.id CMD_GET_DATA), Op.read (o (k + 2))] ∧
    (load_tap_info o k tap).1.cycle_time = 1 + o (k + 1) + o (k + 2) ∧
    (load_tap_info o k tap).1.samples = wrap32 (wrap64 (o k)) ∧
    (load_tap_info o k tap).2.2 = k + 3 := by
  have e64 : (2 : Nat) ^ 64 = 18446744073709551616 := by norm_num
  have e63 : (2 : Nat) ^ 63 = 9223372036854775808 := by norm_num
  have hw1 : wrap64 (o (k + 1)) = o (k + 1) := by
    unfold wrap64
    omega
  have hw2 : wrap64 (o (k + 2)) = o (k + 2) := by
    unfold wrap64
    omega
  have hw3 : wrap64 (1 + o (k + 1) + o (k + 2)) = 1 + o (k + 1) + o (k + 2) := by
    unfold wrap64
    omega
  unfold load_tap_info
  rw [if_neg hcount]
  simp only [hw1, hw2, hw3]
  exact ⟨trivial, trivial, trivial, trivial⟩

/-- Witness for C6: a device answering count 7, start 4, delta 9. -/
theorem C6_trace_info_witness :
    (load_tap_info (fun k => if k = 0 then 7 else if k = 1 then 4 else 9) 0 c1_tap).2.1 =
      [Op.write (cmd_tap c1_tap.id CMD_GET_COUNT), Op.read (wrap64 7),
       Op.write (cmd_tap c1_tap.id CMD_GET_START), Op.read 4,
       Op.write (cmd_tap c1_tap.id CMD_GET_DATA), Op.read 9] ∧
    (load_tap_info (fun k => if k = 0 then 7 else if k = 1 then 4 else 9) 0 c1_tap).1.cycle_time
      = 1 + 4 + 9 ∧
    (load_tap_info (fun k => if k = 0 then 7 else if k = 1 then 4 else 9) 0 c1_tap).1.samples
      = wrap32 (wrap64 7) ∧
    (load_tap_info (fun k => if k = 0 then 7 else if k = 1 then 4 else 9) 0 c1_tap).2.2 = 3 :=
  C6_trace_info (fun k => if k = 0 then 7 else if k = 1 then 4 else 9) 0 c1_tap
    (by decide) (by norm_num) (by norm_num)

/-! ### Claim C7: taps with a zero sample count -/

/-- Claim C7 (confirmed): a tap whose GET_COUNT response is zero is left
untouched by the trace-info loop (its `samples` stays 0) and receives
only the GET_COUNT pair — no GET_START or GET_DATA; the scheduler never
returns a tap with `samples = 0`; consequently no dispatch of the merge
loop ever names such a tap (so it contributes no value-change lines,
which are only written inside dispatched `dump_tap` calls); and Stop
still returns success on a running session holding any such taps. -/
theorem C7_zero_sample_taps :
    (∀ (o : Nat → Nat) (k : Nat) (tap : tap_t), wrap64 (o k) = 0 →
      load_tap_info o k tap
        = (tap, [Op.write (cmd_tap tap.id CMD_GET_COUNT), Op.read 0], k + 1)) ∧
    (∀ (taps : List tap_t) (j c : Nat), find_earliest_tap taps = some (j, c) →
      j < taps.length ∧ (taps.getD j tap0).samples ≠ 0) ∧
    (∀ (o : Nat → Nat) (fuel : Nat) (taps : List tap_t) (k cur j c : Nat),
      (j, c) ∈ (merge_go o fuel taps k cur).trace →
      j < taps.length ∧ (taps.getD j tap0).samples ≠ 0) ∧
    (∀ (mts : List manifest_tap_t) (o : Nat → Nat),
      ∃ ops lines, vx_scope_stop (some ()) ⟨true⟩ (.parsed mts) o
        = .ok 0 ⟨false⟩ ops lines) := by
  refine ⟨?_, ?_, ?_, ?_⟩
  · intro o k tap h
    unfold load_tap_info
    rw [h]
    rfl
  · intro taps j c h
    obtain ⟨h1, h2, _, _⟩ := find_earliest_tap_spec taps j c h
    exact ⟨h1, h2.1⟩
  · intro o fuel taps k cur j c h
    exact merge_go_trace_spec o fuel taps k cur j c h
  · intro mts o
    rw [vx_scope_stop]
    rcases hf : find_earliest_tap (load_trace_info o 0 (load_taps mts)).1 with _ | p
    · simp only [hf]
      exact ⟨_, _, rfl⟩
    · simp only [hf]
      exact ⟨_, _, rfl⟩

/-- Witness for C7: a zero-count device on the C1 tap, a singleton tap
list for the scheduler and merge conjuncts, and an empty manifest. -/
theorem C7_zero_sample_taps_witness :
    load_tap_info (fun _ => 0) 0 c1_tap
      = (c1_tap, [Op.write (cmd_tap c1_tap.id CMD_GET_COUNT), Op.read 0], 1) ∧
    (0 < [c1_tap].length ∧ ([c1_tap].getD 0 tap0).samples ≠ 0) ∧
    (0 < [c1_tap].length ∧ ([c1_tap].getD 0 tap0).samples ≠ 0) ∧
    (∃ ops lines, vx_scope_stop (some ()) ⟨true⟩ (.parsed []) (fun _ => 0)
      = .ok 0 ⟨false⟩ ops lines) :=
  ⟨C7_zero_sample_taps.1 (fun _ => 0) 0 c1_tap rfl,
   C7_zero_sample_taps.2.1 [c1_tap] 0 5 (by decide),
   C7_zero_sample_taps.2.2.1 c1_oracle 1 [c1_tap] 0 0 0 5 (by decide),
   C7_zero_sample_taps.2.2.2 [] (fun _ => 0)⟩

/-! ### Claim C9: hierarchy reconstruction from dotted paths -/

/-- A tap at path `cpu.core.reg` with arbitrary id, width and signals. -/
def c9_tap1 (n w : Nat) (sigs : List tap_signal_t) : tap_t :=
  { id := n, width := w, samples := 0, cur_sample := 0, cycle_time := 0,
    path := "cpu.core.reg", signals := sigs }

/-- A tap at path `cpu.core.alu` with arbitrary id, width and signals. -/
def c9_tap2 (n w : Nat) (sigs : List tap_signal_t) : tap_t :=
  { id := n, width := w, samples := 0, cur_sample := 0, cycle_time := 0,
    path := "cpu.core.alu", signals := sigs }

/-- Claim C9 (confirmed): for every manifest whose taps have paths
`cpu.core.reg` and `cpu.core.alu`, splitting each path on `.` and
inserting adjacent pairs as parent-to-child edges yields `cpu` as the
sole root, `core` as its only child with children `reg` and `alu`, the
tail map attaching each tap to its terminal segment; the rendered header
nests `reg`'s and `alu`'s `$var wire` signal declarations inside scopes
`reg` and `alu` under `core` under `cpu` (rendering shown on a
one-signal-per-tap instance). -/
theorem C9_hierarchy (n1 w1 n2 w2 : Nat) (sigs1 sigs2 : List tap_signal_t) :
    (build_hierarchy [c9_tap1 n1 w1 sigs1, c9_tap2 n2 w2 sigs2]).2.1 = ["cpu"] ∧
    (build_hierarchy [c9_tap1 n1 w1 sigs1, c9_tap2 n2 w2 sigs2]).1.lookup "cpu"
      = some ["core"] ∧
    (build_hierarchy [c9_tap1 n1 w1 sigs1, c9_tap2 n2 w2 sigs2]).1.lookup "core"
      = some ["reg", "alu"] ∧
    (build_hierarchy [c9_tap1 n1 w1 sigs1, c9_tap2 n2 w2 sigs2]).1.lookup "reg"
      = none ∧
    (build_hierarchy [c9_tap1 n1 w1 sigs1, c9_tap2 n2 w2 sigs2]).1.lookup "alu"
      = none ∧
    (build_hierarchy [c9_tap1 n1 w1 sigs1, c9_tap2 n2 w2 sigs2]).2.2.lookup "reg"
      = some (c9_tap1 n1 w1 sigs1) ∧
    (build_hierarchy [c9_tap1 n1 w1 sigs1, c9_tap2 n2 w2 sigs2]).2.2.lookup "alu"
      = some (c9_tap2 n2 w2 sigs2) ∧
    var_line "   " { id := 5, name := "sig", width := 2 }
      = "    $var wire 2 5 sig $end" ∧
    dump_header [c9_tap1 3 2 [⟨1, "r0", 2⟩], c9_tap2 4 1 [⟨2, "a0", 1⟩]] =
      ["$version Generated by Vortex Scope Analyzer $end",
       "$timescale 1 ns $end",
       "$scope module TOP $end",
       " $var wire 1 0 clk $end",
       " $scope module cpu $end",
       "  $scope module core $end",
       "   $scope module reg $end",
       "    $var wire 2 1 r0 $end",
       "   $upscope $end",
       "   $scope module alu $end",
       "    $var wire 1 2 a0 $end",
       "   $upscope $end",
       "  $upscope $end",
       " $upscope $end",
       "$upscope $end",
       "enddefinitions $end"] := by
  refine ⟨rfl, rfl, rfl, rfl, rfl, rfl, rfl, rfl, by decide⟩
